import Mathlib

/-!
Verification of the numerical core of
`catkin_ws/src/kinematics_demo/src/singularity.cpp` (a velocity-resolved
inverse-kinematics demo node).

The damped pseudo-inverse solver, the per-joint clamp and the integration
step are embedded over `ℚ` (the C++ works with `double`; `ℚ` keeps every
definition computable and every concrete evaluation decidable).  The
trajectory generator (`LocalTarget`), which uses `sqrt`, `acos`, `sin` and
quaternion algebra, is embedded over `ℝ` using Mathlib's `Quaternion ℝ`
(tf/tf2 quaternion components map as w = re, x = imI, y = imJ, z = imK).
-/

namespace Singularity

open scoped Matrix

/-! ## Definitions: damped pseudo-inverse solver (`namespace kinematics`, lines 286-349) -/

/-- Matrix inverse over `ℚ` via the adjugate, the value Eigen's `inverse()` computes on an
invertible matrix.  Agrees with Mathlib's `Matrix.inv` on every input (`matInv_eq_inv`). -/
def matInv {k : ℕ} (A : Matrix (Fin k) (Fin k) ℚ) : Matrix (Fin k) (Fin k) ℚ :=
  (A.det)⁻¹ • A.adjugate

/-- Embedding of `kinematics::calculateDampedPseudoInverse_without_SVD` (lines 286-312):
tall Jacobian (`rows ≥ cols`, here `n ≤ m`) uses the left inverse
`(JᵀJ + λ²I)⁻¹ Jᵀ`, otherwise the right inverse `Jᵀ (JJᵀ + λ²I)⁻¹`.
The `eps` parameter is accepted and ignored, exactly as in the source.
The output parameter `jacb_pseudo_inv` becomes the return value; its shape is the
type `Matrix (Fin n) (Fin m) ℚ`, i.e. joints × twist-dimension. -/
def calculateDampedPseudoInverse_without_SVD {m n : ℕ}
    (jacb : Matrix (Fin m) (Fin n) ℚ) (eps lam : ℚ) : Matrix (Fin n) (Fin m) ℚ :=
  if n ≤ m then
    matInv (jacb.transpose * jacb + (lam * lam) • 1) * jacb.transpose
  else
    jacb.transpose * matInv (jacb * jacb.transpose + (lam * lam) • 1)

/-- Singular-value reciprocal filter from `kinematics::calculateDampedPseudoInverse_with_SVD`
(lines 333-347): `1/σᵢ` when `|σᵢ| > ε`, else the damped `σᵢ/(σᵢ² + λ²)`. -/
def invSingular {k : ℕ} (Sv : Fin k → ℚ) (eps lam : ℚ) : Fin k → ℚ := fun i =>
  if |Sv i| > eps then 1 / Sv i else Sv i / (Sv i * Sv i + lam * lam)

/-- Embedding of `kinematics::calculateDampedPseudoInverse_with_SVD` (lines 318-349).
The SVD factorisation itself is done by Eigen's `JacobiSVD` (external library code);
the function is embedded from the factors `U`, `Sv`, `V` it returns, covering the code
the repository owns: the reciprocal filter and the reassembly `V · diag(inv_Sv) · Uᵀ`. -/
def calculateDampedPseudoInverse_with_SVD {m n k : ℕ}
    (U : Matrix (Fin m) (Fin k) ℚ) (Sv : Fin k → ℚ) (V : Matrix (Fin n) (Fin k) ℚ)
    (eps lam : ℚ) : Matrix (Fin n) (Fin m) ℚ :=
  V * Matrix.diagonal (invSingular Sv eps lam) * U.transpose

/-- Per-joint clamp from `main`'s integration loop (lines 660-662): clamp `x` to `[-dmax, dmax]`
(in the source `dmax` is the hard-coded per-tick step `1.0 * M_PI / 180.0`). -/
def clampStep (dmax x : ℚ) : ℚ :=
  if x > dmax then dmax else if x < -dmax then -dmax else x

/-- Integration step `current_joints.position[i] += d_theta[i]` after clamping
(lines 657-665 of `main`). -/
def integrateStep {n : ℕ} (dmax : ℚ) (joints dtheta : Fin n → ℚ) : Fin n → ℚ :=
  fun i => joints i + clampStep dmax (dtheta i)

/-- Scenario input of the end-to-end claim: the spatial twist error
`(0,0,0, 0.01,0,0)` — twist ordered (angular 3, linear 3), so the 1 cm linear-X
error sits at index 3. -/
def scenarioTwist : Fin 6 → ℚ := fun i => if i = 3 then 1 / 100 else 0

/-- Joint-velocity vector solved from the scenario twist with the 6×6 identity Jacobian,
`d_theta = jacb_pseudo_inv * sTwist_error` (line 647), using the normal-equations solver
the main loop calls (line 608) with the launch-file damping `λ` (ε is ignored there). -/
def scenarioSolved (lam : ℚ) : Fin 6 → ℚ :=
  calculateDampedPseudoInverse_without_SVD (1 : Matrix (Fin 6) (Fin 6) ℚ) 1 lam *ᵥ scenarioTwist

/-- Concrete test vector: all-ones singular values on one direction. -/
def SvOne : Fin 1 → ℚ := fun _ => 1

/-- Concrete test vector: a fully degenerate singular value. -/
def SvZero : Fin 1 → ℚ := fun _ => 0

/-- Concrete test matrix: the rank-deficient 6×1 zero Jacobian. -/
def Jzero : Matrix (Fin 6) (Fin 1) ℚ := 0

/-! ## Definitions: trajectory generator (`class LocalTarget`, lines 416-509)

The orientation quaternion is Mathlib's `Quaternion ℝ`; the tf/tf2 component order
`(x, y, z, w)` maps to `(imI, imJ, imK, re)`. -/

/-- Embedding of `geometry_msgs::Pose`: position `(px, py, pz)` plus an orientation
quaternion `q` (message fields `orientation.w = q.re`, `.x = q.imI`, `.y = q.imJ`,
`.z = q.imK`). -/
@[ext] structure Pose where
  px : ℝ
  py : ℝ
  pz : ℝ
  q : Quaternion ℝ

/-- Pure quaternion with imaginary part `(x, y, z)` (a 3-vector viewed inside `ℍ`). -/
def pureQ (x y z : ℝ) : Quaternion ℝ := ⟨0, x, y, z⟩

/-- tf2 `Quaternion::dot`: the four-component dot product. -/
def dot4 (a b : Quaternion ℝ) : ℝ :=
  a.re * b.re + a.imI * b.imI + a.imJ * b.imJ + a.imK * b.imK

/-- tf2 `Quaternion::length2`. -/
def length2 (a : Quaternion ℝ) : ℝ := dot4 a a

/-- tf `Quaternion::getAngleShortestPath()` (used on the relative quaternion in
`LocalTarget::reset_`, line 489): `2·acos(w)` when `w ≥ 0`, else `2·acos(−w)`. -/
noncomputable def getAngleShortestPath (a : Quaternion ℝ) : ℝ :=
  if 0 ≤ a.re then 2 * Real.arccos a.re else 2 * Real.arccos (-a.re)

/-- tf2 `Quaternion::angleShortestPath(q)` (called inside `tf2::slerp`):
`acos(±dot/√(|a|²|b|²))·2`, negating the second quaternion when the dot product is
negative (long-angle case). -/
noncomputable def angleShortestPath2 (a b : Quaternion ℝ) : ℝ :=
  if dot4 a b < 0 then Real.arccos (dot4 a (-b) / Real.sqrt (length2 a * length2 b)) * 2
  else Real.arccos (dot4 a b / Real.sqrt (length2 a * length2 b)) * 2

/-- tf2 `slerp(q1, q2, t) = q1.slerp(q2, t)` (used in `LocalTarget::updatePose`, line 444):
with `θ = angleShortestPath(q1,q2)/2`, if `θ ≠ 0` blend `q1` with `±q2` by
`(sin((1−t)θ)·q1 + sin(tθ)·(±q2))/sin θ` (sign from the dot product), else return `q1`. -/
noncomputable def slerpQ (a b : Quaternion ℝ) (t : ℝ) : Quaternion ℝ :=
  if angleShortestPath2 a b / 2 ≠ 0 then
    if dot4 a b < 0 then
      (1 / Real.sin (angleShortestPath2 a b / 2)) •
        (Real.sin ((1 - t) * (angleShortestPath2 a b / 2)) • a +
          Real.sin (t * (angleShortestPath2 a b / 2)) • (-b))
    else
      (1 / Real.sin (angleShortestPath2 a b / 2)) •
        (Real.sin ((1 - t) * (angleShortestPath2 a b / 2)) • a +
          Real.sin (t * (angleShortestPath2 a b / 2)) • b)
  else a

/-- Rotation of a (pure) quaternion `v` by a unit quaternion `q`, as `q·v·q⋆`.
tf applies the equivalent 3×3 basis matrix. -/
noncomputable def rotQ (q v : Quaternion ℝ) : Quaternion ℝ := q * v * star q

/-- Embedding of `kinematics::dPose_geom(target, ref)` (lines 248-263): the pose of
`target` expressed in `ref`'s frame, i.e. `ref_tf.inverse() * target_tf`.  Modelled at
the quaternion level for unit quaternions: translation `R(q_ref)ᵀ(p_t − p_ref)`
realised as conjugation by `star ref.q`, orientation `star ref.q * target.q`.
(tf roundtrips the rotation through a 3×3 matrix, which can flip the overall quaternion
sign; every consumer below — the translation norm and the shortest-path angle — is
sign-invariant.) -/
noncomputable def dPose_geom (target ref : Pose) : Pose :=
  let dp := rotQ (star ref.q)
    (pureQ (target.px - ref.px) (target.py - ref.py) (target.pz - ref.pz))
  { px := dp.imI, py := dp.imJ, pz := dp.imK, q := star ref.q * target.q }

/-- Mutable state of `class LocalTarget` (lines 496-508).  The configuration constants
`linear_vel_` and `dquat_rot_vel_` are passed as explicit parameters below. -/
@[ext] structure LTState where
  global_target_id : ℕ
  fromP : Pose
  toP : Pose
  start_time : ℝ
  expected_duration : ℝ
  pose : Pose

/-- Embedding of `LocalTarget::isClose_` (lines 458-468): every position component and
every quaternion component within the fixed tolerance `0.01`, strictly, in the source
order x, y, z, qx, qy, qz, qw. -/
def isClose (pose toP : Pose) : Prop :=
  |pose.px - toP.px| < 1 / 100 ∧ |pose.py - toP.py| < 1 / 100 ∧
  |pose.pz - toP.pz| < 1 / 100 ∧ |pose.q.imI - toP.q.imI| < 1 / 100 ∧
  |pose.q.imJ - toP.q.imJ| < 1 / 100 ∧ |pose.q.imK - toP.q.imK| < 1 / 100 ∧
  |pose.q.re - toP.q.re| < 1 / 100

noncomputable instance isClose_dec (pose toP : Pose) : Decidable (isClose pose toP) := by
  unfold isClose
  infer_instance

/-- Embedding of `LocalTarget::reset_(global_target_id)` (lines 470-494), called with the
current output pose: `from_ := pose_`, `to_ :=` the selected waypoint, `start_time_ := now`,
`expected_duration_ := max(position_dist/linear_vel, quat_angle/dquat_rot_vel)` with
`position_dist` the norm of the relative translation and `quat_angle` the shortest-path
angle of the relative quaternion. -/
noncomputable def reset (linear_vel dquat_rot_vel : ℝ) (eef_target1 eef_target2 : Pose)
    (now : ℝ) (global_target_id : ℕ) (curPose : Pose) : LTState :=
  let fromP := curPose
  let toP := if global_target_id = 1 then eef_target1 else eef_target2
  let d_pose := dPose_geom toP fromP
  let position_dist := Real.sqrt (d_pose.px * d_pose.px + d_pose.py * d_pose.py +
    d_pose.pz * d_pose.pz)
  let position_time := position_dist / linear_vel
  let quat_angle := getAngleShortestPath d_pose.q
  let quat_time := quat_angle / dquat_rot_vel
  { global_target_id := global_target_id, fromP := fromP, toP := toP,
    start_time := now, expected_duration := max position_time quat_time, pose := curPose }

/-- Interpolation fraction of `LocalTarget::updatePose` (lines 434-436):
`elapsed / expected_duration`, clamped above at 1 and nowhere else — in particular there
is no guard against `expected_duration = 0`. -/
noncomputable def slerpT (time_elapsed expected_duration : ℝ) : ℝ :=
  if time_elapsed / expected_duration > 1 then 1 else time_elapsed / expected_duration

/-- Embedding of `LocalTarget::updatePose` (lines 429-446): first reset to the other
waypoint if the output pose is close to the current destination, then lerp the position
and slerp the orientation at the clamped fraction. -/
noncomputable def updatePose (linear_vel dquat_rot_vel : ℝ) (eef_target1 eef_target2 : Pose)
    (now : ℝ) (s : LTState) : LTState :=
  let s1 := if isClose s.pose s.toP then
    reset linear_vel dquat_rot_vel eef_target1 eef_target2 now
      ((s.global_target_id + 1) % 2) s.pose
    else s
  let t := slerpT (now - s1.start_time) s1.expected_duration
  { s1 with pose :=
    { px := (s1.toP.px - s1.fromP.px) * t + s1.fromP.px,
      py := (s1.toP.py - s1.fromP.py) * t + s1.fromP.py,
      pz := (s1.toP.pz - s1.fromP.pz) * t + s1.fromP.pz,
      q := slerpQ s1.fromP.q s1.toP.q t } }

/-- Embedding of the `LocalTarget` constructor (lines 419-424): store the initial pose
and call `reset_(1)`.  In `main` (lines 549-562, 583) both interactive-marker targets
and the stored pose are initialised to the same initial end-effector pose. -/
noncomputable def initLocalTarget (linear_vel dquat_rot_vel : ℝ)
    (eef_target1 eef_target2 : Pose) (now : ℝ) (initial_pose : Pose) : LTState :=
  reset linear_vel dquat_rot_vel eef_target1 eef_target2 now 1 initial_pose

/-! ## Definitions: SE3::matLog reference sketch (commented out at lines 193-225) -/

/-- Eigen `p.norm()` on a 3-vector. -/
noncomputable def norm3 (p : Fin 3 → ℝ) : ℝ := Real.sqrt (p 0 ^ 2 + p 1 ^ 2 + p 2 ^ 2)

/-- Embedding of the `SE3::matLog` reference sketch (commented out at lines 198-224),
returning `(w_hat, v)`.  `θ = acos((trace R − 1)/2)` (Mathlib's `arccos` clamps its
argument to `[-1, 1]`, mirroring the spec's `clamp`).  The sketch assigns `v` only in
the `θ ≈ 0` branch (the function is an unfinished sketch); in the other two branches
this model leaves `v` at `p`, and no theorem below relies on those branches. -/
noncomputable def matLog (R : Matrix (Fin 3) (Fin 3) ℝ) (p : Fin 3 → ℝ) :
    (Fin 3 → ℝ) × (Fin 3 → ℝ) :=
  if Real.arccos ((Matrix.trace R - 1) / 2) = 0 then
    (0, if norm3 p = 0 then p else (norm3 p)⁻¹ • p)
  else if Real.arccos ((Matrix.trace R - 1) / 2) = Real.pi then
    ((Real.sqrt (2 * (1 + R 2 2)))⁻¹ • ![R 0 2, R 1 2, 1 + R 2 2], p)
  else
    (![((2 * Real.sin (Real.arccos ((Matrix.trace R - 1) / 2)))⁻¹ •
          (R - R.transpose)) 2 1,
       ((2 * Real.sin (Real.arccos ((Matrix.trace R - 1) / 2)))⁻¹ •
          (R - R.transpose)) 0 2,
       ((2 * Real.sin (Real.arccos ((Matrix.trace R - 1) / 2)))⁻¹ •
          (R - R.transpose)) 1 0], p)

/-! ## Spec-side definitions (for refinement statements only) -/

/-- Spec-side definition, following the spec's words: Euclidean distance between the
positions of two poses. -/
noncomputable def specLinearDistance (a b : Pose) : ℝ :=
  Real.sqrt ((b.px - a.px) ^ 2 + (b.py - a.py) ^ 2 + (b.pz - a.pz) ^ 2)

/-- Spec-side definition, following the spec's words: geodesic (shortest-path) angle
between two unit quaternions, `2·acos|⟨a,b⟩|`. -/
noncomputable def specGeodesicAngle (a b : Quaternion ℝ) : ℝ :=
  2 * Real.arccos |dot4 a b|

/-- Spec-side definition, following the spec's words: clamp to `[0, 1]`. -/
noncomputable def specClamp01 (x : ℝ) : ℝ := max 0 (min x 1)

/-! ## Concrete test poses and states -/

/-- Test pose: origin, identity orientation. -/
noncomputable def poseId : Pose := { px := 0, py := 0, pz := 0, q := 1 }

/-- Test pose: 0.1 m along X, identity orientation. -/
noncomputable def poseX : Pose := { px := 1 / 10, py := 0, pz := 0, q := 1 }

/-- Test pose: origin, negated identity quaternion — the same rotation as `poseId`. -/
noncomputable def poseNegId : Pose := { px := 0, py := 0, pz := 0, q := -1 }

/-- Test pose: 0.1 m along X, negated identity quaternion. -/
noncomputable def poseXNeg : Pose := { px := 1 / 10, py := 0, pz := 0, q := -1 }

/-- Test quaternion with negative dot against the identity: rotation by `2π/3` about X,
written with scalar part `−1/2`. -/
noncomputable def qNegDot : Quaternion ℝ := ⟨-(1 / 2), Real.sqrt 3 / 2, 0, 0⟩

/-- Stuck trajectory state for the quaternion-sign analysis: the interpolation has
landed on the opposite-sign representative `−qNegDot` of the destination orientation
`qNegDot`, positions already coincide. -/
noncomputable def stuckState (dur : ℝ) : LTState :=
  { global_target_id := 0,
    fromP := { px := 0, py := 0, pz := 0, q := 1 },
    toP := { px := 0, py := 0, pz := 0, q := qNegDot },
    start_time := 0, expected_duration := dur,
    pose := { px := 0, py := 0, pz := 0, q := -qNegDot } }

/-- Test trajectory state with the output pose already at the destination. -/
noncomputable def atGoalState : LTState :=
  { global_target_id := 0, fromP := poseId, toP := poseId,
    start_time := 0, expected_duration := 1, pose := poseId }

/-! ## Helper lemmas for the solver -/

theorem matInv_eq_inv {k : ℕ} (A : Matrix (Fin k) (Fin k) ℚ) : matInv A = A⁻¹ := by
  rw [Matrix.inv_def, Ring.inverse_eq_inv]
  rfl

theorem dotProduct_self_nonneg {k : ℕ} (v : Fin k → ℚ) : 0 ≤ v ⬝ᵥ v :=
  Finset.sum_nonneg fun i _ => mul_self_nonneg (v i)

/-- Quadratic form of the damped normal matrix: `vᵀ(AᵀA + λ²I)v = ‖Av‖² + λ²‖v‖²`. -/
theorem dotProduct_damped {m k : ℕ} (A : Matrix (Fin m) (Fin k) ℚ) (lam : ℚ) (v : Fin k → ℚ) :
    v ⬝ᵥ (A.transpose * A + (lam * lam) • 1) *ᵥ v
      = (A *ᵥ v) ⬝ᵥ (A *ᵥ v) + (lam * lam) * (v ⬝ᵥ v) := by
  rw [Matrix.add_mulVec, Matrix.dotProduct_add, Matrix.smul_mulVec_assoc, Matrix.one_mulVec,
    ← Matrix.mulVec_mulVec, Matrix.dotProduct_mulVec, Matrix.vecMul_transpose,
    Matrix.dotProduct_smul, smul_eq_mul]

/-- The damped normal matrix `AᵀA + λ²I` has a unit determinant for every `A` (rank-deficient
included) as soon as `λ ≠ 0`. -/
theorem isUnit_det_damped {m k : ℕ} (A : Matrix (Fin m) (Fin k) ℚ) {lam : ℚ} (hl : lam ≠ 0) :
    IsUnit (A.transpose * A + (lam * lam) • (1 : Matrix (Fin k) (Fin k) ℚ)).det := by
  rw [isUnit_iff_ne_zero]
  intro hdet
  obtain ⟨v, hv0, hv⟩ := Matrix.exists_mulVec_eq_zero_iff.mpr hdet
  have hq := dotProduct_damped A lam v
  rw [hv, Matrix.dotProduct_zero] at hq
  have hvv : 0 < v ⬝ᵥ v :=
    lt_of_le_of_ne (dotProduct_self_nonneg v)
      (fun h => hv0 (Matrix.dotProduct_self_eq_zero.mp h.symm))
  have hll : 0 < lam * lam := mul_self_pos.mpr hl
  nlinarith [dotProduct_self_nonneg (A *ᵥ v)]

/-! ## Claim C1 -/

/-- Claim C1: for every 6×N Jacobian `J` and every `λ` (and the unused `ε`), the
normal-equations damped pseudo-inverse returns `(JᵀJ + λ²I)⁻¹Jᵀ` when `J` has at least
as many rows as columns (`N ≤ 6`) and `Jᵀ(JJᵀ + λ²I)⁻¹` otherwise; in both cases the
result lives in `Matrix (Fin N) (Fin 6) ℚ`, i.e. has shape N×6 (joints × twist-dimension).
The inverses on the right-hand side are Mathlib's matrix inverse. -/
theorem claim1_normal_equations {n : ℕ} (J : Matrix (Fin 6) (Fin n) ℚ) (eps lam : ℚ) :
    calculateDampedPseudoInverse_without_SVD J eps lam =
      if n ≤ 6 then (J.transpose * J + lam ^ 2 • 1)⁻¹ * J.transpose
      else J.transpose * (J * J.transpose + lam ^ 2 • 1)⁻¹ := by
  unfold calculateDampedPseudoInverse_without_SVD
  by_cases h : n ≤ 6 <;> simp [h, matInv_eq_inv, pow_two]

/-! ## Claim C2 -/

/-- Claim C2: for every Jacobian `J` with a singular value decomposition `J = U Σ Vᵀ`
supplied by Eigen and every `ε`, `λ`, the SVD-filtered strategy inverts each singular
value `σᵢ` as `1/σᵢ` when `|σᵢ| > ε` (undamped exact reciprocal) and as `σᵢ/(σᵢ²+λ²)`
otherwise, and returns `V · diag(inv_σ) · Uᵀ`. -/
theorem claim2_svd_filter {m n k : ℕ} (J : Matrix (Fin m) (Fin n) ℚ)
    (U : Matrix (Fin m) (Fin k) ℚ) (Sv : Fin k → ℚ) (V : Matrix (Fin n) (Fin k) ℚ)
    (eps lam : ℚ) (hJ : J = U * Matrix.diagonal Sv * V.transpose) :
    calculateDampedPseudoInverse_with_SVD U Sv V eps lam =
      V * Matrix.diagonal (fun i => if |Sv i| > eps then 1 / Sv i
        else Sv i / (Sv i * Sv i + lam * lam)) * U.transpose ∧
    (∀ i, |Sv i| > eps → invSingular Sv eps lam i = 1 / Sv i) ∧
    (∀ i, ¬ |Sv i| > eps → invSingular Sv eps lam i = Sv i / (Sv i * Sv i + lam * lam)) := by
  refine ⟨rfl, fun i h => ?_, fun i h => ?_⟩
  · simp [invSingular, h]
  · simp [invSingular, h]

/-- Witness for C2 at the 1×1 factorisation `J = U = V = 1`, `σ₀ = 1`, `ε = 0`, `λ = 1`. -/
theorem claim2_svd_filter_witness :
    ((1 : Matrix (Fin 1) (Fin 1) ℚ) =
        1 * Matrix.diagonal SvOne * (1 : Matrix (Fin 1) (Fin 1) ℚ).transpose) ∧
    (calculateDampedPseudoInverse_with_SVD 1 SvOne (1 : Matrix (Fin 1) (Fin 1) ℚ) 0 1 =
      (1 : Matrix (Fin 1) (Fin 1) ℚ) * Matrix.diagonal (fun i => if |SvOne i| > 0
        then 1 / SvOne i
        else SvOne i / (SvOne i * SvOne i + 1 * 1)) *
        (1 : Matrix (Fin 1) (Fin 1) ℚ).transpose ∧
      (∀ i, |SvOne i| > 0 → invSingular SvOne 0 1 i = 1 / SvOne i) ∧
      (∀ i, ¬ |SvOne i| > 0 →
        invSingular SvOne 0 1 i = SvOne i / (SvOne i * SvOne i + 1 * 1))) := by
  have h : (1 : Matrix (Fin 1) (Fin 1) ℚ) =
      1 * Matrix.diagonal SvOne * (1 : Matrix (Fin 1) (Fin 1) ℚ).transpose := by
    have h1 : Matrix.diagonal SvOne = (1 : Matrix (Fin 1) (Fin 1) ℚ) := Matrix.diagonal_one
    rw [h1, Matrix.transpose_one, Matrix.mul_one, Matrix.mul_one]
  exact ⟨h, claim2_svd_filter 1 1 SvOne 1 0 1 h⟩

/-! ## Claim C3 -/

/-- Claim C3: for every Jacobian, rank-deficient ones included, and every `λ > 0`
(and `ε ≥ 0`), both strategies stay finite and never divide by zero: the damped
normal matrices `JᵀJ + λ²I` and `JJᵀ + λ²I` have unit determinant (so Eigen's
`inverse()` is a genuine inverse, recovered here as products giving back `Jᵀ`),
and in the SVD filter every denominator is nonzero, a zero singular value producing
the zero — not an infinite — reciprocal. -/
theorem claim3_damping_safety {n k : ℕ} (J : Matrix (Fin 6) (Fin n) ℚ) (eps lam : ℚ)
    (Sv : Fin k → ℚ) (i : Fin k) (hlam : 0 < lam) (heps : 0 ≤ eps) :
    IsUnit (J.transpose * J + (lam * lam) • (1 : Matrix (Fin n) (Fin n) ℚ)).det ∧
    IsUnit (J * J.transpose + (lam * lam) • (1 : Matrix (Fin 6) (Fin 6) ℚ)).det ∧
    (n ≤ 6 → (J.transpose * J + (lam * lam) • 1) *
        calculateDampedPseudoInverse_without_SVD J eps lam = J.transpose) ∧
    (¬ n ≤ 6 → calculateDampedPseudoInverse_without_SVD J eps lam *
        (J * J.transpose + (lam * lam) • 1) = J.transpose) ∧
    ((|Sv i| > eps → Sv i ≠ 0) ∧ Sv i * Sv i + lam * lam ≠ 0 ∧
      (Sv i = 0 → invSingular Sv eps lam i = 0)) := by
  have hl : lam ≠ 0 := ne_of_gt hlam
  have htall : IsUnit (J.transpose * J + (lam * lam) • (1 : Matrix (Fin n) (Fin n) ℚ)).det :=
    isUnit_det_damped J hl
  have hfat : IsUnit (J * J.transpose + (lam * lam) • (1 : Matrix (Fin 6) (Fin 6) ℚ)).det := by
    have h := isUnit_det_damped J.transpose hl
    rwa [Matrix.transpose_transpose] at h
  refine ⟨htall, hfat, fun h => ?_, fun h => ?_, fun h => ?_, ?_, fun h => ?_⟩
  · unfold calculateDampedPseudoInverse_without_SVD
    rw [if_pos h, matInv_eq_inv, ← Matrix.mul_assoc,
      Matrix.mul_nonsing_inv _ htall, Matrix.one_mul]
  · unfold calculateDampedPseudoInverse_without_SVD
    rw [if_neg h, matInv_eq_inv, Matrix.mul_assoc,
      Matrix.nonsing_inv_mul _ hfat, Matrix.mul_one]
  · intro h0
    rw [h0] at h
    simp at h
    exact absurd h (not_lt.mpr heps)
  · have := mul_self_pos.mpr hl
    nlinarith [mul_self_nonneg (Sv i)]
  · have : ¬ |Sv i| > eps := by
      rw [h]
      simpa using heps
    simp [invSingular, this, h]

/-- Witness for C3 at the rank-deficient `J = 0` (6×1), `ε = 1`, `λ = 1`, `σ₀ = 0`. -/
theorem claim3_damping_safety_witness :
    (0 : ℚ) < 1 ∧ (0 : ℚ) ≤ 1 ∧
    (IsUnit (Jzero.transpose * Jzero +
        ((1 : ℚ) * 1) • (1 : Matrix (Fin 1) (Fin 1) ℚ)).det ∧
      IsUnit (Jzero * Jzero.transpose +
        ((1 : ℚ) * 1) • (1 : Matrix (Fin 6) (Fin 6) ℚ)).det ∧
      ((1 : ℕ) ≤ 6 → (Jzero.transpose * Jzero + ((1 : ℚ) * 1) • 1) *
          calculateDampedPseudoInverse_without_SVD Jzero 1 1 = Jzero.transpose) ∧
      (¬ (1 : ℕ) ≤ 6 → calculateDampedPseudoInverse_without_SVD Jzero 1 1 *
          (Jzero * Jzero.transpose + ((1 : ℚ) * 1) • 1) = Jzero.transpose) ∧
      ((|SvZero 0| > 1 → SvZero 0 ≠ 0) ∧
        SvZero 0 * SvZero 0 + (1 : ℚ) * 1 ≠ 0 ∧
        (SvZero 0 = 0 → invSingular SvZero 1 1 0 = 0))) :=
  ⟨by norm_num, by norm_num,
    claim3_damping_safety Jzero 1 1 SvZero 0 (by norm_num) (by norm_num)⟩

/-! ## Claim C4 -/

/-- On the 6×6 identity Jacobian the normal-equations solver is the scalar `(1+λ²)⁻¹`. -/
theorem dampedPinv_one (eps lam : ℚ) :
    calculateDampedPseudoInverse_without_SVD (1 : Matrix (Fin 6) (Fin 6) ℚ) eps lam
      = (1 + lam * lam)⁻¹ • 1 := by
  have h1 : (1 : ℚ) + lam * lam ≠ 0 := by nlinarith [mul_self_nonneg lam]
  unfold calculateDampedPseudoInverse_without_SVD
  rw [if_pos (le_refl 6), Matrix.transpose_one, Matrix.mul_one, Matrix.one_mul]
  have h2 : (1 : Matrix (Fin 6) (Fin 6) ℚ) + (lam * lam) • 1
      = (1 + lam * lam) • (1 : Matrix (Fin 6) (Fin 6) ℚ) := by
    rw [add_smul, one_smul]
  rw [h2, matInv_eq_inv]
  apply Matrix.inv_eq_right_inv
  rw [Matrix.smul_mul, Matrix.mul_smul, smul_smul, Matrix.one_mul, mul_inv_cancel₀ h1, one_smul]

/-- The solved scenario vector is the damped-scaled twist. -/
theorem scenarioSolved_eq (lam : ℚ) :
    scenarioSolved lam = fun i => (1 + lam * lam)⁻¹ * scenarioTwist i := by
  unfold scenarioSolved
  rw [dampedPinv_one, Matrix.smul_mulVec_assoc, Matrix.one_mulVec]
  rfl

/-- Counterexample to claim C4 as stated: with the identity 6×6 Jacobian, the launch-file
damping `λ = 0.01` and the stated twist error `(0,0,0, 0.01,0,0)`, component 0 of the solved
joint velocity is exactly 0, not approximately `0.01` — it misses `0.01` by the full `0.01`,
far beyond any reasonable reading of "approximately" (tolerance `0.001` here). -/
theorem claim4_scenario_counterexample :
    ¬ |scenarioSolved (1 / 100) 0 - 1 / 100| ≤ 1 / 1000 := by
  have h0 : scenarioTwist 0 = 0 := by
    norm_num [scenarioTwist, show ((0 : Fin 6) = 3) = False by decide]
  rw [scenarioSolved_eq]
  simp only [h0, mul_zero, zero_sub, abs_neg]
  rw [abs_of_pos (by norm_num : (0 : ℚ) < 1 / 100)]
  norm_num

/-- Claim C4 (amended): in the end-to-end scenario with initial `JointVector = 0`, a 6×6
identity Jacobian and target twist error `(0,0,0, 0.01,0,0)` (1 cm along X, index 3 in the
(angular, linear) twist order), the solved joint velocity before clamping is
`(0,0,0, 0.01/(1+λ²),0,0)` — approximately `(0,0,0, 0.01,0,0)`, i.e. the nonzero entry sits
at joint 3, the joint paired with the linear-X twist row, not at joint 0 — and after clamping
with any per-tick maximum `dmax` with `0 < dmax ≤ 0.01/(1+λ²)`, the joint vector advances by
exactly `dmax` on joint 3 and by 0 elsewhere. -/
theorem claim4_scenario_amended (lam dmax : ℚ) (hd : 0 < dmax)
    (hdle : dmax ≤ (1 / 100) / (1 + lam * lam)) :
    scenarioSolved lam 3 = (1 / 100) / (1 + lam * lam) ∧
    (∀ i : Fin 6, i ≠ 3 → scenarioSolved lam i = 0) ∧
    |scenarioSolved lam 3 - 1 / 100| ≤ (1 / 100) * (lam * lam) ∧
    (∀ i : Fin 6, integrateStep dmax 0 (scenarioSolved lam) i
      = if i = 3 then dmax else 0) := by
  have hpos : (0 : ℚ) < 1 + lam * lam := by nlinarith [mul_self_nonneg lam]
  have htw : scenarioTwist 3 = 1 / 100 := by norm_num [scenarioTwist]
  have h3 : scenarioSolved lam 3 = (1 / 100) / (1 + lam * lam) := by
    rw [scenarioSolved_eq]
    simp only [htw]
    ring
  refine ⟨h3, fun i hi => ?_, ?_, fun i => ?_⟩
  · rw [scenarioSolved_eq]
    simp [scenarioTwist, hi]
  · have hu0 : (0 : ℚ) ≤ (1 / 100) / (1 + lam * lam) := div_nonneg (by norm_num) hpos.le
    have hu : (1 / 100 : ℚ) / (1 + lam * lam) * (1 + lam * lam) = 1 / 100 :=
      div_mul_cancel₀ _ (ne_of_gt hpos)
    rw [h3, abs_sub_comm, abs_of_nonneg
      (by nlinarith [mul_nonneg hu0 (mul_self_nonneg lam)] :
        (0 : ℚ) ≤ 1 / 100 - (1 / 100) / (1 + lam * lam))]
    nlinarith [mul_nonneg (mul_nonneg hu0 (mul_self_nonneg lam)) (mul_self_nonneg lam),
      mul_nonneg hu0 (mul_self_nonneg lam)]
  · by_cases hi : i = 3
    · subst hi
      rw [if_pos rfl]
      unfold integrateStep clampStep
      rw [h3]
      rcases lt_or_le dmax ((1 / 100) / (1 + lam * lam)) with h | h
      · rw [if_pos h, Pi.zero_apply, zero_add]
      · have he : (1 / 100) / (1 + lam * lam) = dmax := le_antisymm h hdle
        rw [he, if_neg (lt_irrefl dmax)]
        have hne : ¬ dmax < -dmax := by linarith
        rw [if_neg hne, Pi.zero_apply, zero_add]
    · rw [if_neg hi]
      unfold integrateStep clampStep
      have h0 : scenarioSolved lam i = 0 := by
        rw [scenarioSolved_eq]; simp [scenarioTwist, hi]
      rw [h0, if_neg (by linarith : ¬ (0 : ℚ) > dmax),
        if_neg (by linarith : ¬ (0 : ℚ) < -dmax), Pi.zero_apply, add_zero]

/-- Witness for the amended C4 at `λ = 0.01`, `dmax = 0.005`. -/
theorem claim4_scenario_amended_witness :
    (0 : ℚ) < 1 / 200 ∧ (1 : ℚ) / 200 ≤ (1 / 100) / (1 + (1 / 100) * (1 / 100)) ∧
    (scenarioSolved (1 / 100) 3 = (1 / 100) / (1 + (1 / 100) * (1 / 100)) ∧
      (∀ i : Fin 6, i ≠ 3 → scenarioSolved (1 / 100) i = 0) ∧
      |scenarioSolved (1 / 100) 3 - 1 / 100| ≤ (1 / 100) * ((1 / 100) * (1 / 100)) ∧
      (∀ i : Fin 6, integrateStep (1 / 200) 0 (scenarioSolved (1 / 100)) i
        = if i = 3 then 1 / 200 else 0)) :=
  ⟨by norm_num, by norm_num,
    claim4_scenario_amended (1 / 100) (1 / 200) (by norm_num) (by norm_num)⟩

/-! ## Claim C5 -/

/-- Claim C5: for every solver output `dtheta` of any magnitude and every configured
per-tick maximum `dmax ≥ 0`, after clamping each component of the joint-velocity delta
has absolute value at most `dmax`, and the joint vector is incremented componentwise by
exactly the clamped delta. -/
theorem claim5_clamp_bound {n : ℕ} (dmax : ℚ) (joints dtheta : Fin n → ℚ)
    (h : 0 ≤ dmax) :
    ∀ i, |integrateStep dmax joints dtheta i - joints i| ≤ dmax ∧
      integrateStep dmax joints dtheta i - joints i = clampStep dmax (dtheta i) := by
  intro i
  have hdiff : integrateStep dmax joints dtheta i - joints i = clampStep dmax (dtheta i) := by
    unfold integrateStep
    rw [add_sub_cancel_left]
  refine ⟨?_, hdiff⟩
  rw [hdiff]
  unfold clampStep
  by_cases h1 : dtheta i > dmax
  · rw [if_pos h1, abs_of_nonneg h]
  · rw [if_neg h1]
    by_cases h2 : dtheta i < -dmax
    · rw [if_pos h2, abs_neg, abs_of_nonneg h]
    · rw [if_neg h2]
      exact abs_le.mpr ⟨le_of_not_lt h2, le_of_not_lt h1⟩

/-- Witness for C5: a solver output of magnitude 5 clamped at `dmax = 1`. -/
theorem claim5_clamp_bound_witness :
    (0 : ℚ) ≤ 1 ∧
    (|integrateStep 1 (0 : Fin 1 → ℚ) (fun _ => 5) 0 - (0 : Fin 1 → ℚ) 0| ≤ 1 ∧
      integrateStep 1 (0 : Fin 1 → ℚ) (fun _ => 5) 0 - (0 : Fin 1 → ℚ) 0
        = clampStep 1 ((fun _ : Fin 1 => (5 : ℚ)) 0)) :=
  ⟨by norm_num, claim5_clamp_bound 1 (0 : Fin 1 → ℚ) (fun _ => 5) (by norm_num) 0⟩

/-! ## Helper lemmas: quaternions and the relative pose -/

theorem mul_re_comm (a b : Quaternion ℝ) : (a * b).re = (b * a).re := by
  simp only [Quaternion.mul_re]
  ring

theorem star_mul_re (a b : Quaternion ℝ) : (star a * b).re = dot4 a b := by
  simp only [Quaternion.mul_re, Quaternion.star_re, Quaternion.star_imI,
    Quaternion.star_imJ, Quaternion.star_imK, dot4]
  ring

theorem length2_eq_normSq (a : Quaternion ℝ) : length2 a = Quaternion.normSq a := by
  simp only [length2, dot4, Quaternion.normSq_def']
  ring

theorem normSq_of_norm_one {a : Quaternion ℝ} (h : ‖a‖ = 1) : Quaternion.normSq a = 1 := by
  rw [Quaternion.normSq_eq_norm_mul_self, h, one_mul]

theorem rotQ_re (q v : Quaternion ℝ) : (rotQ q v).re = Quaternion.normSq q * v.re := by
  rw [rotQ, mul_re_comm, ← mul_assoc, Quaternion.star_mul_self, Quaternion.coe_mul_eq_smul]
  simp

theorem rotQ_normSq (q v : Quaternion ℝ) :
    Quaternion.normSq (rotQ q v) =
      Quaternion.normSq q * Quaternion.normSq v * Quaternion.normSq q := by
  rw [rotQ, map_mul, map_mul, Quaternion.normSq_star]

@[simp] theorem pureQ_re (x y z : ℝ) : (pureQ x y z).re = 0 := rfl

@[simp] theorem pureQ_imI (x y z : ℝ) : (pureQ x y z).imI = x := rfl

@[simp] theorem pureQ_imJ (x y z : ℝ) : (pureQ x y z).imJ = y := rfl

@[simp] theorem pureQ_imK (x y z : ℝ) : (pureQ x y z).imK = z := rfl

theorem dPose_geom_q (target ref : Pose) :
    (dPose_geom target ref).q = star ref.q * target.q := rfl

theorem dPose_geom_px (target ref : Pose) :
    (dPose_geom target ref).px = (rotQ (star ref.q)
      (pureQ (target.px - ref.px) (target.py - ref.py) (target.pz - ref.pz))).imI := rfl

theorem dPose_geom_py (target ref : Pose) :
    (dPose_geom target ref).py = (rotQ (star ref.q)
      (pureQ (target.px - ref.px) (target.py - ref.py) (target.pz - ref.pz))).imJ := rfl

theorem dPose_geom_pz (target ref : Pose) :
    (dPose_geom target ref).pz = (rotQ (star ref.q)
      (pureQ (target.px - ref.px) (target.py - ref.py) (target.pz - ref.pz))).imK := rfl

/-- The translation norm computed by `reset_` equals the Euclidean distance between the
two positions, because conjugation by a unit quaternion preserves the norm. -/
theorem dPose_geom_dist (target ref : Pose) (h : ‖ref.q‖ = 1) :
    Real.sqrt ((dPose_geom target ref).px * (dPose_geom target ref).px +
      (dPose_geom target ref).py * (dPose_geom target ref).py +
      (dPose_geom target ref).pz * (dPose_geom target ref).pz)
      = specLinearDistance ref target := by
  have hn : Quaternion.normSq ref.q = 1 := normSq_of_norm_one h
  rw [dPose_geom_px, dPose_geom_py, dPose_geom_pz]
  set r := rotQ (star ref.q)
    (pureQ (target.px - ref.px) (target.py - ref.py) (target.pz - ref.pz)) with hr
  have hre : r.re = 0 := by
    rw [hr, rotQ_re]
    simp
  have hnr : Quaternion.normSq r = Quaternion.normSq
      (pureQ (target.px - ref.px) (target.py - ref.py) (target.pz - ref.pz)) := by
    rw [hr, rotQ_normSq, Quaternion.normSq_star, hn, one_mul, mul_one]
  have hcomp : r.imI * r.imI + r.imJ * r.imJ + r.imK * r.imK
      = (target.px - ref.px) ^ 2 + (target.py - ref.py) ^ 2 + (target.pz - ref.pz) ^ 2 := by
    rw [Quaternion.normSq_def', Quaternion.normSq_def', hre] at hnr
    simp only [pureQ_re, pureQ_imI, pureQ_imJ, pureQ_imK] at hnr
    nlinarith [hnr]
  rw [hcomp]
  rfl

/-- The relative quaternion's shortest-path angle equals the spec's geodesic angle. -/
theorem dPose_geom_angle (target ref : Pose) :
    getAngleShortestPath (dPose_geom target ref).q = specGeodesicAngle ref.q target.q := by
  unfold getAngleShortestPath specGeodesicAngle
  rw [dPose_geom_q, star_mul_re]
  by_cases h : 0 ≤ dot4 ref.q target.q
  · rw [if_pos h, abs_of_nonneg h]
  · rw [if_neg h, abs_of_neg (lt_of_not_le h)]

theorem normSq_sub (a b : Quaternion ℝ) :
    Quaternion.normSq (a - b) = Quaternion.normSq a + Quaternion.normSq b - 2 * dot4 a b := by
  simp only [Quaternion.normSq_def', Quaternion.sub_re, Quaternion.sub_imI,
    Quaternion.sub_imJ, Quaternion.sub_imK, dot4]
  ring

theorem dot4_le_one {a b : Quaternion ℝ} (ha : Quaternion.normSq a = 1)
    (hb : Quaternion.normSq b = 1) : dot4 a b ≤ 1 := by
  have h := Quaternion.normSq_nonneg (a := a - b)
  rw [normSq_sub, ha, hb] at h
  linarith

theorem eq_of_dot4_eq_one {a b : Quaternion ℝ} (ha : Quaternion.normSq a = 1)
    (hb : Quaternion.normSq b = 1) (h : dot4 a b = 1) : a = b := by
  have h2 : Quaternion.normSq (a - b) = 0 := by
    rw [normSq_sub, ha, hb, h]
    ring
  exact sub_eq_zero.mp (Quaternion.normSq_eq_zero.mp h2)

/-- tf2 slerp at `t = 1` lands exactly on the destination quaternion whenever the two
unit quaternions have nonnegative dot product. -/
theorem slerpQ_one_of_dot_nonneg {a b : Quaternion ℝ} (ha : ‖a‖ = 1) (hb : ‖b‖ = 1)
    (hd : 0 ≤ dot4 a b) : slerpQ a b 1 = b := by
  have hna := normSq_of_norm_one ha
  have hnb := normSq_of_norm_one hb
  have hs : Real.sqrt (length2 a * length2 b) = 1 := by
    rw [length2_eq_normSq, length2_eq_normSq, hna, hnb, mul_one, Real.sqrt_one]
  have hd1 : dot4 a b ≤ 1 := dot4_le_one hna hnb
  have hang : angleShortestPath2 a b / 2 = Real.arccos (dot4 a b) := by
    unfold angleShortestPath2
    rw [if_neg (not_lt.mpr hd), hs, div_one, mul_div_cancel_right₀ _ (two_ne_zero)]
  unfold slerpQ
  rw [hang]
  by_cases harc : Real.arccos (dot4 a b) = 0
  · rw [if_neg (by simpa using harc)]
    have h1 : dot4 a b = 1 :=
      le_antisymm hd1 (Real.arccos_eq_zero.mp harc)
    exact eq_of_dot4_eq_one hna hnb h1
  · rw [if_pos harc, if_neg (not_lt.mpr hd)]
    have hlt : Real.arccos (dot4 a b) < Real.pi :=
      lt_of_le_of_lt (Real.arccos_le_pi_div_two.mpr hd)
        (by linarith [Real.pi_pos])
    have hpos : 0 < Real.arccos (dot4 a b) :=
      lt_of_le_of_ne (Real.arccos_nonneg _) (Ne.symm harc)
    have hsin : 0 < Real.sin (Real.arccos (dot4 a b)) :=
      Real.sin_pos_of_pos_of_lt_pi hpos hlt
    rw [sub_self, zero_mul, Real.sin_zero, zero_smul, zero_add, one_mul,
      smul_smul, one_div, inv_mul_cancel₀ (ne_of_gt hsin), one_smul]

/-! ## Helper lemmas: reset / updatePose state machine -/

theorem reset_global_target_id (vl vr : ℝ) (t1 t2 : Pose) (t0 : ℝ) (id : ℕ) (cur : Pose) :
    (reset vl vr t1 t2 t0 id cur).global_target_id = id := rfl

theorem reset_fromP (vl vr : ℝ) (t1 t2 : Pose) (t0 : ℝ) (id : ℕ) (cur : Pose) :
    (reset vl vr t1 t2 t0 id cur).fromP = cur := rfl

theorem reset_toP (vl vr : ℝ) (t1 t2 : Pose) (t0 : ℝ) (id : ℕ) (cur : Pose) :
    (reset vl vr t1 t2 t0 id cur).toP = if id = 1 then t1 else t2 := rfl

theorem reset_start_time (vl vr : ℝ) (t1 t2 : Pose) (t0 : ℝ) (id : ℕ) (cur : Pose) :
    (reset vl vr t1 t2 t0 id cur).start_time = t0 := rfl

theorem reset_pose (vl vr : ℝ) (t1 t2 : Pose) (t0 : ℝ) (id : ℕ) (cur : Pose) :
    (reset vl vr t1 t2 t0 id cur).pose = cur := rfl

theorem reset_expected_duration (vl vr : ℝ) (t1 t2 : Pose) (t0 : ℝ) (id : ℕ) (cur : Pose) :
    (reset vl vr t1 t2 t0 id cur).expected_duration =
      max (Real.sqrt ((dPose_geom (if id = 1 then t1 else t2) cur).px *
            (dPose_geom (if id = 1 then t1 else t2) cur).px +
          (dPose_geom (if id = 1 then t1 else t2) cur).py *
            (dPose_geom (if id = 1 then t1 else t2) cur).py +
          (dPose_geom (if id = 1 then t1 else t2) cur).pz *
            (dPose_geom (if id = 1 then t1 else t2) cur).pz) / vl)
        (getAngleShortestPath (dPose_geom (if id = 1 then t1 else t2) cur).q / vr) := rfl

theorem updatePose_not_close (vl vr : ℝ) (t1 t2 : Pose) (now : ℝ) (s : LTState)
    (h : ¬ isClose s.pose s.toP) :
    updatePose vl vr t1 t2 now s =
      { s with pose :=
        { px := (s.toP.px - s.fromP.px) * slerpT (now - s.start_time) s.expected_duration +
            s.fromP.px,
          py := (s.toP.py - s.fromP.py) * slerpT (now - s.start_time) s.expected_duration +
            s.fromP.py,
          pz := (s.toP.pz - s.fromP.pz) * slerpT (now - s.start_time) s.expected_duration +
            s.fromP.pz,
          q := slerpQ s.fromP.q s.toP.q
            (slerpT (now - s.start_time) s.expected_duration) } } := by
  unfold updatePose
  rw [if_neg h]

theorem updatePose_global_target_id (vl vr : ℝ) (t1 t2 : Pose) (now : ℝ) (s : LTState) :
    (updatePose vl vr t1 t2 now s).global_target_id =
      if isClose s.pose s.toP then (s.global_target_id + 1) % 2
      else s.global_target_id := by
  unfold updatePose
  by_cases h : isClose s.pose s.toP
  · simp only [if_pos h]
    rfl
  · simp only [if_neg h]

theorem slerpT_of_nonneg {e d : ℝ} (he : 0 ≤ e) (hd : 0 < d) :
    slerpT e d = specClamp01 (e / d) := by
  unfold slerpT specClamp01
  have h0 : 0 ≤ e / d := div_nonneg he hd.le
  by_cases h : e / d > 1
  · rw [if_pos h, min_eq_right h.le, max_eq_right (by norm_num : (0 : ℝ) ≤ 1)]
  · rw [if_neg h, min_eq_left (le_of_not_lt h), max_eq_right h0]

theorem slerpT_at_end {e d : ℝ} (hd : 0 < d) (hde : d ≤ e) : slerpT e d = 1 := by
  unfold slerpT
  by_cases h : e / d > 1
  · rw [if_pos h]
  · rw [if_neg h]
    have h1 : 1 ≤ e / d := (one_le_div hd).mpr hde
    exact le_antisymm (le_of_not_lt h) h1

/-! ## Claim C7 -/

/-- Claim C7: the trajectory transitions from `Approaching(i)` to `Approaching(1−i)`
exactly when each of the three position components and each of the four quaternion
components of the current output pose is strictly within `0.01` of the active
destination (the `isClose_` test, spelled out in the first conjunct); each arrival
triggers exactly one switch within the tick, and a tick without arrival leaves the
waypoint id unchanged — the transition never fires twice in one tick. -/
theorem claim7_waypoint_switch (vl vr : ℝ) (t1 t2 : Pose) (now : ℝ) (s : LTState)
    (hid : s.global_target_id ≤ 1) :
    (isClose s.pose s.toP ↔
      (|s.pose.px - s.toP.px| < 1 / 100 ∧ |s.pose.py - s.toP.py| < 1 / 100 ∧
       |s.pose.pz - s.toP.pz| < 1 / 100 ∧ |s.pose.q.imI - s.toP.q.imI| < 1 / 100 ∧
       |s.pose.q.imJ - s.toP.q.imJ| < 1 / 100 ∧ |s.pose.q.imK - s.toP.q.imK| < 1 / 100 ∧
       |s.pose.q.re - s.toP.q.re| < 1 / 100)) ∧
    (isClose s.pose s.toP →
      (updatePose vl vr t1 t2 now s).global_target_id = 1 - s.global_target_id) ∧
    (¬ isClose s.pose s.toP →
      (updatePose vl vr t1 t2 now s).global_target_id = s.global_target_id) := by
  refine ⟨Iff.rfl, fun h => ?_, fun h => ?_⟩
  · rw [updatePose_global_target_id, if_pos h]
    omega
  · rw [updatePose_global_target_id, if_neg h]

/-- Witness for C7 at a state that has arrived at waypoint 0's destination. -/
theorem claim7_waypoint_switch_witness :
    atGoalState.global_target_id ≤ 1 ∧
    ((isClose atGoalState.pose atGoalState.toP ↔
      (|atGoalState.pose.px - atGoalState.toP.px| < 1 / 100 ∧
       |atGoalState.pose.py - atGoalState.toP.py| < 1 / 100 ∧
       |atGoalState.pose.pz - atGoalState.toP.pz| < 1 / 100 ∧
       |atGoalState.pose.q.imI - atGoalState.toP.q.imI| < 1 / 100 ∧
       |atGoalState.pose.q.imJ - atGoalState.toP.q.imJ| < 1 / 100 ∧
       |atGoalState.pose.q.imK - atGoalState.toP.q.imK| < 1 / 100 ∧
       |atGoalState.pose.q.re - atGoalState.toP.q.re| < 1 / 100)) ∧
    (isClose atGoalState.pose atGoalState.toP →
      (updatePose 1 1 poseId poseId 0 atGoalState).global_target_id =
        1 - atGoalState.global_target_id) ∧
    (¬ isClose atGoalState.pose atGoalState.toP →
      (updatePose 1 1 poseId poseId 0 atGoalState).global_target_id =
        atGoalState.global_target_id)) :=
  ⟨by norm_num [atGoalState],
    claim7_waypoint_switch 1 1 poseId poseId 0 atGoalState (by norm_num [atGoalState])⟩

/-! ## Claim C9 -/

/-- Claim C9: `LocalTarget::updatePose` divides the elapsed time by `expected_duration_`
with no zero guard, and a leg whose destination equals the current output pose gets
`expected_duration_ = 0`: at startup both waypoints and the stored pose are the same
end-effector pose, so the state built by the constructor has duration 0, and the fraction
computed by the next update is literally `elapsed / 0` (the `ℝ` model values `x / 0 = 0`;
IEEE doubles produce `inf`/`NaN` there). -/
theorem claim9_zero_duration (vl vr t0 : ℝ) (p : Pose) (hq : ‖p.q‖ = 1) :
    (initLocalTarget vl vr p p t0 p).expected_duration = 0 ∧
    (∀ e : ℝ, slerpT e (initLocalTarget vl vr p p t0 p).expected_duration = e / 0) := by
  have hdur : (initLocalTarget vl vr p p t0 p).expected_duration = 0 := by
    unfold initLocalTarget
    rw [reset_expected_duration]
    have hif : (if (1 : ℕ) = 1 then p else p) = p := if_pos rfl
    rw [hif]
    have hpq : (dPose_geom p p).q = 1 := by
      rw [dPose_geom_q, Quaternion.star_mul_self, normSq_of_norm_one hq,
        Quaternion.coe_one]
    have hzero : pureQ (p.px - p.px) (p.py - p.py) (p.pz - p.pz) = 0 := by
      simp [pureQ, Quaternion.ext_iff, sub_self]
    have hx : (dPose_geom p p).px = 0 := by
      rw [dPose_geom_px, hzero]
      simp [rotQ]
    have hy : (dPose_geom p p).py = 0 := by
      rw [dPose_geom_py, hzero]
      simp [rotQ]
    have hz : (dPose_geom p p).pz = 0 := by
      rw [dPose_geom_pz, hzero]
      simp [rotQ]
    rw [hx, hy, hz, hpq]
    have hang : getAngleShortestPath (1 : Quaternion ℝ) = 0 := by
      unfold getAngleShortestPath
      rw [if_pos (by norm_num : (0 : ℝ) ≤ (1 : Quaternion ℝ).re)]
      simp [Real.arccos_one]
    rw [hang]
    norm_num [Real.sqrt_zero]
  exact ⟨hdur, fun e => by rw [hdur]; simp [slerpT]⟩

/-- Witness for C9 at the identity startup pose. -/
theorem claim9_zero_duration_witness :
    ‖poseId.q‖ = 1 ∧
    ((initLocalTarget 1 1 poseId poseId 0 poseId).expected_duration = 0 ∧
      (∀ e : ℝ, slerpT e (initLocalTarget 1 1 poseId poseId 0 poseId).expected_duration
        = e / 0)) :=
  ⟨by simp [poseId], claim9_zero_duration 1 1 0 poseId (by simp [poseId])⟩

/-! ## Helper lemmas: concrete trajectory legs -/

theorem dPose_geom_of_ref_one (target ref : Pose) (h : ref.q = 1) :
    dPose_geom target ref =
      { px := target.px - ref.px, py := target.py - ref.py, pz := target.pz - ref.pz,
        q := target.q } := by
  refine Pose.ext ?_ ?_ ?_ ?_
  · rw [dPose_geom_px, h]
    simp [rotQ]
  · rw [dPose_geom_py, h]
    simp [rotQ]
  · rw [dPose_geom_pz, h]
    simp [rotQ]
  · rw [dPose_geom_q, h, star_one, one_mul]

theorem angle_one : getAngleShortestPath (1 : Quaternion ℝ) = 0 := by
  unfold getAngleShortestPath
  rw [if_pos (by norm_num : (0 : ℝ) ≤ (1 : Quaternion ℝ).re)]
  simp [Real.arccos_one]

theorem angle_neg_one : getAngleShortestPath (-1 : Quaternion ℝ) = 0 := by
  unfold getAngleShortestPath
  rw [if_neg (by norm_num : ¬ (0 : ℝ) ≤ (-1 : Quaternion ℝ).re)]
  have h : -(-1 : Quaternion ℝ).re = 1 := by norm_num
  rw [h, Real.arccos_one, mul_zero]

theorem sqrt_point_one : Real.sqrt ((1 / 10 : ℝ) * (1 / 10)) = 1 / 10 :=
  Real.sqrt_mul_self (by norm_num)

theorem duration_legXNeg :
    (reset (1 / 50) 1 poseXNeg poseXNeg 0 1 poseId).expected_duration = 5 := by
  rw [reset_expected_duration, if_pos rfl,
    dPose_geom_of_ref_one poseXNeg poseId (by simp [poseId])]
  norm_num [poseXNeg, poseId, angle_neg_one, sqrt_point_one]
  rw [show (100 : ℝ) = 10 * 10 by norm_num, Real.sqrt_mul_self (by norm_num : (0 : ℝ) ≤ 10),
    show ((10 : ℝ)⁻¹ / (1 / 50)) = 5 by norm_num]
  exact max_eq_left (by norm_num)

theorem duration_legX :
    (reset (1 / 50) 1 poseX poseX 0 1 poseId).expected_duration = 5 := by
  rw [reset_expected_duration, if_pos rfl,
    dPose_geom_of_ref_one poseX poseId (by simp [poseId])]
  norm_num [poseX, poseId, angle_one, sqrt_point_one]
  rw [show (100 : ℝ) = 10 * 10 by norm_num, Real.sqrt_mul_self (by norm_num : (0 : ℝ) ≤ 10),
    show ((10 : ℝ)⁻¹ / (1 / 50)) = 5 by norm_num]
  exact max_eq_left (by norm_num)

theorem not_isClose_poseId_poseX : ¬ isClose poseId poseX := by
  intro h
  obtain ⟨h1, -⟩ := h
  simp only [poseId, poseX] at h1
  rw [show ((0 : ℝ) - 1 / 10) = -(1 / 10) by norm_num, abs_neg,
    abs_of_pos (by norm_num : (0 : ℝ) < 1 / 10)] at h1
  norm_num at h1

theorem not_isClose_poseId_poseXNeg : ¬ isClose poseId poseXNeg := by
  intro h
  obtain ⟨h1, -⟩ := h
  simp only [poseId, poseXNeg] at h1
  rw [show ((0 : ℝ) - 1 / 10) = -(1 / 10) by norm_num, abs_neg,
    abs_of_pos (by norm_num : (0 : ℝ) < 1 / 10)] at h1
  norm_num at h1

theorem dot4_one_one : dot4 (1 : Quaternion ℝ) 1 = 1 := by
  simp [dot4]

theorem dot4_one_negOne : dot4 (1 : Quaternion ℝ) (-1) = -1 := by
  simp [dot4]

theorem length2_one : length2 (1 : Quaternion ℝ) = 1 := by
  simp [length2, dot4]

theorem length2_negOne : length2 (-1 : Quaternion ℝ) = 1 := by
  simp [length2, dot4]

theorem angle2_one_negOne : angleShortestPath2 (1 : Quaternion ℝ) (-1) = 0 := by
  unfold angleShortestPath2
  rw [if_pos (by rw [dot4_one_negOne]; norm_num : dot4 (1 : Quaternion ℝ) (-1) < 0),
    neg_neg, dot4_one_one, length2_one, length2_negOne, one_mul, Real.sqrt_one,
    div_one, Real.arccos_one, zero_mul]

theorem slerpQ_one_negOne : slerpQ (1 : Quaternion ℝ) (-1) 1 = 1 := by
  unfold slerpQ
  rw [if_neg]
  rw [angle2_one_negOne]
  norm_num

/-! ## Claim C6 -/

/-- Counterexample to claim C6 as stated: a leg from the identity orientation to the
same rotation stored with the opposite quaternion sign (and 0.1 m away, so the leg has
positive duration 5 at `max_linear_speed = 0.02`).  At elapsed = duration the
interpolation fraction is 1, yet the output pose does not equal the destination:
tf2's slerp handles the negative dot product by blending toward `−q₂`, so the output
orientation is `(w=1)`, not the destination's `(w=-1)`. -/
theorem claim6_leg_counterexample :
    (reset (1 / 50) 1 poseXNeg poseXNeg 0 1 poseId).expected_duration = 5 ∧
    (updatePose (1 / 50) 1 poseXNeg poseXNeg 5
      (reset (1 / 50) 1 poseXNeg poseXNeg 0 1 poseId)).pose ≠ poseXNeg := by
  refine ⟨duration_legXNeg, ?_⟩
  have hnc : ¬ isClose (reset (1 / 50) 1 poseXNeg poseXNeg 0 1 poseId).pose
      (reset (1 / 50) 1 poseXNeg poseXNeg 0 1 poseId).toP := by
    rw [reset_pose, reset_toP, if_pos rfl]
    exact not_isClose_poseId_poseXNeg
  rw [updatePose_not_close _ _ _ _ _ _ hnc]
  intro h
  have hq := congrArg Pose.q h
  simp only at hq
  rw [reset_fromP, reset_toP, if_pos rfl, reset_start_time, duration_legXNeg] at hq
  rw [show ((5 : ℝ) - 0) = 5 by norm_num,
    slerpT_at_end (by norm_num : (0 : ℝ) < 5) (le_refl 5)] at hq
  have hq1 : poseId.q = 1 := rfl
  have hq2 : poseXNeg.q = -1 := rfl
  rw [hq1, hq2, slerpQ_one_negOne] at hq
  have := congrArg Quaternion.re hq
  norm_num at this

/-- Claim C6 (amended): for a trajectory leg built by `reset_` with source pose `S`
(the current output pose), destination `D` (the selected waypoint), unit quaternions,
elapsed `e ≥ 0` and positive duration, not yet at the destination: the duration is
`max(linear_distance/max_linear_speed, geodesic_angle/max_angular_speed)`; the per-tick
update sets the output position to the linear interpolation of the `S` and `D` positions
at `t = clamp(e/duration, 0, 1)` and the output orientation to the tf2 spherical linear
interpolation of the `S` and `D` orientations at `t`.  At `e = duration` (`t = 1`) the
output position equals the destination position exactly, and the output orientation
equals the destination quaternion exactly whenever the two quaternions have nonnegative
dot product — with negative dot product slerp lands on the negated (same-rotation)
representative instead, which is the correction the counterexample forces. -/
theorem claim6_leg_interpolation (vl vr : ℝ) (t1 t2 D : Pose) (t0 e : ℝ) (id : ℕ)
    (cur : Pose) (leg : LTState)
    (hD : (if id = 1 then t1 else t2) = D)
    (hleg : reset vl vr t1 t2 t0 id cur = leg)
    (hq1 : ‖cur.q‖ = 1) (hq2 : ‖D.q‖ = 1) (he : 0 ≤ e)
    (hdur : 0 < leg.expected_duration) (hnc : ¬ isClose cur D) :
    leg.expected_duration =
      max (specLinearDistance cur D / vl) (specGeodesicAngle cur.q D.q / vr) ∧
    (updatePose vl vr t1 t2 (t0 + e) leg).pose =
      { px := (D.px - cur.px) * specClamp01 (e / leg.expected_duration) + cur.px,
        py := (D.py - cur.py) * specClamp01 (e / leg.expected_duration) + cur.py,
        pz := (D.pz - cur.pz) * specClamp01 (e / leg.expected_duration) + cur.pz,
        q := slerpQ cur.q D.q (specClamp01 (e / leg.expected_duration)) } ∧
    (e = leg.expected_duration →
      ((updatePose vl vr t1 t2 (t0 + e) leg).pose.px = D.px ∧
       (updatePose vl vr t1 t2 (t0 + e) leg).pose.py = D.py ∧
       (updatePose vl vr t1 t2 (t0 + e) leg).pose.pz = D.pz) ∧
      (0 ≤ dot4 cur.q D.q →
        (updatePose vl vr t1 t2 (t0 + e) leg).pose.q = D.q)) := by
  subst hleg
  subst hD
  have hnc2 : ¬ isClose (reset vl vr t1 t2 t0 id cur).pose
      (reset vl vr t1 t2 t0 id cur).toP := by
    rw [reset_pose, reset_toP]
    exact hnc
  have hup := updatePose_not_close vl vr t1 t2 (t0 + e) _ hnc2
  rw [reset_fromP, reset_toP, reset_start_time, add_sub_cancel_left,
    slerpT_of_nonneg he hdur] at hup
  refine ⟨?_, ?_, ?_⟩
  · rw [reset_expected_duration, dPose_geom_dist _ _ hq1, dPose_geom_angle]
  · rw [hup]
  · intro heq
    have ht1 : specClamp01 (e / (reset vl vr t1 t2 t0 id cur).expected_duration) = 1 := by
      rw [heq, div_self (ne_of_gt hdur)]
      norm_num [specClamp01]
    rw [hup, ht1]
    refine ⟨⟨by ring, by ring, by ring⟩, fun hdot => ?_⟩
    exact slerpQ_one_of_dot_nonneg hq1 hq2 hdot

/-- Witness for the amended C6: the leg from `poseId` to `poseX` at speeds
`(0.02, 1)`, `e = 2`. -/
theorem claim6_leg_interpolation_witness :
    ((if (1 : ℕ) = 1 then poseX else poseX) = poseX) ∧
    (reset (1 / 50) 1 poseX poseX 0 1 poseId =
      reset (1 / 50) 1 poseX poseX 0 1 poseId) ∧
    ‖poseId.q‖ = 1 ∧ ‖poseX.q‖ = 1 ∧ (0 : ℝ) ≤ 2 ∧
    (0 < (reset (1 / 50) 1 poseX poseX 0 1 poseId).expected_duration) ∧
    ¬ isClose poseId poseX ∧
    ((reset (1 / 50) 1 poseX poseX 0 1 poseId).expected_duration =
      max (specLinearDistance poseId poseX / (1 / 50))
        (specGeodesicAngle poseId.q poseX.q / 1) ∧
    (updatePose (1 / 50) 1 poseX poseX (0 + 2)
        (reset (1 / 50) 1 poseX poseX 0 1 poseId)).pose =
      { px := (poseX.px - poseId.px) *
          specClamp01 (2 / (reset (1 / 50) 1 poseX poseX 0 1 poseId).expected_duration) +
          poseId.px,
        py := (poseX.py - poseId.py) *
          specClamp01 (2 / (reset (1 / 50) 1 poseX poseX 0 1 poseId).expected_duration) +
          poseId.py,
        pz := (poseX.pz - poseId.pz) *
          specClamp01 (2 / (reset (1 / 50) 1 poseX poseX 0 1 poseId).expected_duration) +
          poseId.pz,
        q := slerpQ poseId.q poseX.q
          (specClamp01 (2 / (reset (1 / 50) 1 poseX poseX 0 1 poseId).expected_duration)) } ∧
    ((2 : ℝ) = (reset (1 / 50) 1 poseX poseX 0 1 poseId).expected_duration →
      ((updatePose (1 / 50) 1 poseX poseX (0 + 2)
          (reset (1 / 50) 1 poseX poseX 0 1 poseId)).pose.px = poseX.px ∧
       (updatePose (1 / 50) 1 poseX poseX (0 + 2)
          (reset (1 / 50) 1 poseX poseX 0 1 poseId)).pose.py = poseX.py ∧
       (updatePose (1 / 50) 1 poseX poseX (0 + 2)
          (reset (1 / 50) 1 poseX poseX 0 1 poseId)).pose.pz = poseX.pz) ∧
      (0 ≤ dot4 poseId.q poseX.q →
        (updatePose (1 / 50) 1 poseX poseX (0 + 2)
          (reset (1 / 50) 1 poseX poseX 0 1 poseId)).pose.q = poseX.q))) :=
  ⟨rfl, rfl, by simp [poseId], by simp [poseX], by norm_num,
    by rw [duration_legX]; norm_num, not_isClose_poseId_poseX,
    claim6_leg_interpolation (1 / 50) 1 poseX poseX poseX 0 2 1 poseId
      (reset (1 / 50) 1 poseX poseX 0 1 poseId) rfl rfl
      (by simp [poseId]) (by simp [poseX]) (by norm_num)
      (by rw [duration_legX]; norm_num) not_isClose_poseId_poseX⟩

/-! ## Claim C8 -/

theorem norm3_eq_zero {p : Fin 3 → ℝ} : norm3 p = 0 ↔ p = 0 := by
  unfold norm3
  rw [Real.sqrt_eq_zero (by positivity)]
  constructor
  · intro h
    have h0 : p 0 ^ 2 = 0 := by nlinarith [sq_nonneg (p 0), sq_nonneg (p 1), sq_nonneg (p 2)]
    have h1 : p 1 ^ 2 = 0 := by nlinarith [sq_nonneg (p 0), sq_nonneg (p 1), sq_nonneg (p 2)]
    have h2 : p 2 ^ 2 = 0 := by nlinarith [sq_nonneg (p 0), sq_nonneg (p 1), sq_nonneg (p 2)]
    funext i
    fin_cases i
    · exact pow_eq_zero_iff two_ne_zero |>.mp h0
    · exact pow_eq_zero_iff two_ne_zero |>.mp h1
    · exact pow_eq_zero_iff two_ne_zero |>.mp h2
  · intro h
    rw [h]
    simp

/-- Claim C8: for every transform with rotation part `R` and translation `p` whose
rotation angle `θ = acos(clamp((trace R − 1)/2, −1, 1))` is zero (Mathlib's `arccos`
performs the clamping), the `SE3::matLog` reference sketch returns the zero vector as
the angular part, and as the linear part `p/‖p‖` when `p` is nonzero and the zero vector
when `p` is zero — the direction only, not the magnitude. -/
theorem claim8_matlog_zero_rotation (R : Matrix (Fin 3) (Fin 3) ℝ) (p : Fin 3 → ℝ)
    (h : Real.arccos ((Matrix.trace R - 1) / 2) = 0) :
    (matLog R p).1 = 0 ∧
    (p = 0 → (matLog R p).2 = 0) ∧
    (p ≠ 0 → (matLog R p).2 = (norm3 p)⁻¹ • p) := by
  unfold matLog
  rw [if_pos h]
  refine ⟨rfl, fun hp => ?_, fun hp => ?_⟩
  · rw [if_pos (norm3_eq_zero.mpr hp)]
    exact hp
  · rw [if_neg fun hc => hp (norm3_eq_zero.mp hc)]

/-- Witness for C8 at the identity rotation and zero translation. -/
theorem claim8_matlog_zero_rotation_witness :
    Real.arccos ((Matrix.trace (1 : Matrix (Fin 3) (Fin 3) ℝ) - 1) / 2) = 0 ∧
    ((matLog (1 : Matrix (Fin 3) (Fin 3) ℝ) (0 : Fin 3 → ℝ)).1 = 0 ∧
      ((0 : Fin 3 → ℝ) = 0 → (matLog (1 : Matrix (Fin 3) (Fin 3) ℝ) (0 : Fin 3 → ℝ)).2 = 0) ∧
      ((0 : Fin 3 → ℝ) ≠ 0 → (matLog (1 : Matrix (Fin 3) (Fin 3) ℝ) (0 : Fin 3 → ℝ)).2 =
        (norm3 (0 : Fin 3 → ℝ))⁻¹ • (0 : Fin 3 → ℝ))) := by
  have h : Real.arccos ((Matrix.trace (1 : Matrix (Fin 3) (Fin 3) ℝ) - 1) / 2) = 0 := by
    rw [Matrix.trace_one]
    norm_num [Real.arccos_one]
  exact ⟨h, claim8_matlog_zero_rotation 1 0 h⟩

/-! ## Helper lemmas: the opposite-sign slerp instance -/

theorem dot4_one_qNegDot : dot4 (1 : Quaternion ℝ) qNegDot = -(1 / 2) := by
  simp [dot4, qNegDot]

theorem dot4_one_negQNegDot : dot4 (1 : Quaternion ℝ) (-qNegDot) = 1 / 2 := by
  simp [dot4, qNegDot]

theorem length2_qNegDot : length2 qNegDot = 1 := by
  have h3 : Real.sqrt 3 * Real.sqrt 3 = 3 := Real.mul_self_sqrt (by norm_num)
  simp only [length2, dot4, qNegDot]
  nlinarith [h3]

theorem angle2_one_qNegDot :
    angleShortestPath2 (1 : Quaternion ℝ) qNegDot = Real.pi / 3 * 2 := by
  unfold angleShortestPath2
  rw [if_pos (by rw [dot4_one_qNegDot]; norm_num : dot4 (1 : Quaternion ℝ) qNegDot < 0),
    dot4_one_negQNegDot, length2_one, length2_qNegDot, one_mul, Real.sqrt_one, div_one,
    show (1 / 2 : ℝ) = Real.cos (Real.pi / 3) from (Real.cos_pi_div_three).symm,
    Real.arccos_cos (by positivity) (by linarith [Real.pi_pos])]

/-- tf2 slerp at `t = 1` lands on the negated representative when the dot is negative. -/
theorem slerpQ_one_qNegDot : slerpQ (1 : Quaternion ℝ) qNegDot 1 = -qNegDot := by
  have hth : angleShortestPath2 (1 : Quaternion ℝ) qNegDot / 2 = Real.pi / 3 := by
    rw [angle2_one_qNegDot]
    ring
  unfold slerpQ
  rw [hth, if_pos (ne_of_gt (by positivity : (0 : ℝ) < Real.pi / 3)),
    if_pos (by rw [dot4_one_qNegDot]; norm_num : dot4 (1 : Quaternion ℝ) qNegDot < 0),
    sub_self, zero_mul, Real.sin_zero, zero_smul, zero_add, one_mul,
    Real.sin_pi_div_three, smul_smul, one_div,
    inv_mul_cancel₀ (ne_of_gt (by positivity : (0 : ℝ) < Real.sqrt 3 / 2)), one_smul]

theorem qNegDot_ne_neg : qNegDot ≠ -qNegDot := by
  intro h
  have h2 := congrArg Quaternion.imI h
  simp only [qNegDot, Quaternion.neg_imI] at h2
  have h3 : (0 : ℝ) < Real.sqrt 3 := Real.sqrt_pos.mpr (by norm_num)
  linarith

/-! ## Claim C10 -/

/-- Claim C10: the arrival check compares the orientation quaternion componentwise and
therefore distinguishes the two unit-quaternion representations `q` and `−q` of the same
rotation: negating a quaternion leaves its rotation action unchanged (first conjunct),
yet an output pose and a destination with identical positions and opposite-sign
quaternions fail `isClose_` (second conjunct); tf2 slerp can land exactly on the
opposite-sign representative at `t = 1` (third conjunct); and a state stuck on that
representative is a fixpoint of `updatePose` — the waypoint switch never fires for such
a leg (fourth conjunct). -/
theorem claim10_quaternion_sign :
    (∀ q v : Quaternion ℝ, rotQ (-q) v = rotQ q v) ∧
    (poseNegId.px = poseId.px ∧ poseNegId.py = poseId.py ∧ poseNegId.pz = poseId.pz ∧
      poseNegId.q = -poseId.q ∧ ¬ isClose poseNegId poseId) ∧
    (slerpQ 1 qNegDot 1 = -qNegDot ∧ qNegDot ≠ -qNegDot) ∧
    (∀ (vl vr : ℝ) (t1 t2 : Pose) (dur now : ℝ), 0 < dur → dur ≤ now →
      updatePose vl vr t1 t2 now (stuckState dur) = stuckState dur ∧
      (updatePose vl vr t1 t2 now (stuckState dur)).global_target_id =
        (stuckState dur).global_target_id) := by
  refine ⟨fun q v => ?_, ⟨rfl, rfl, rfl, ?_, ?_⟩, ⟨slerpQ_one_qNegDot, qNegDot_ne_neg⟩, ?_⟩
  · simp [rotQ, star_neg, neg_mul, mul_neg]
  · show (-1 : Quaternion ℝ) = -1
    rfl
  · intro h
    obtain ⟨-, -, -, -, -, -, h7⟩ := h
    simp only [poseNegId, poseId] at h7
    rw [show ((-1 : Quaternion ℝ).re - (1 : Quaternion ℝ).re) = -2 by norm_num,
      abs_neg, abs_of_pos (by norm_num : (0 : ℝ) < 2)] at h7
    norm_num at h7
  · intro vl vr t1 t2 dur now hdur hle
    have hnc : ¬ isClose (stuckState dur).pose (stuckState dur).toP := by
      intro h
      obtain ⟨-, -, -, -, -, -, h7⟩ := h
      simp only [stuckState, Quaternion.neg_re] at h7
      rw [show (-qNegDot.re - qNegDot.re) = 1 by rw [show qNegDot.re = -(1 / 2) from rfl]; norm_num,
        abs_one] at h7
      norm_num at h7
    have hup := updatePose_not_close vl vr t1 t2 now _ hnc
    have ht : slerpT (now - (stuckState dur).start_time)
        (stuckState dur).expected_duration = 1 := by
      rw [show (stuckState dur).start_time = 0 from rfl,
        show (stuckState dur).expected_duration = dur from rfl, sub_zero]
      exact slerpT_at_end hdur hle
    rw [ht] at hup
    have heq : updatePose vl vr t1 t2 now (stuckState dur) = stuckState dur := by
      rw [hup]
      refine LTState.ext rfl rfl rfl rfl rfl (Pose.ext ?_ ?_ ?_ ?_)
      · norm_num [stuckState]
      · norm_num [stuckState]
      · norm_num [stuckState]
      · exact slerpQ_one_qNegDot
    exact ⟨heq, by rw [heq]⟩

/-- Witness for C10 instantiating the stuck-leg fixpoint at `dur = 1`, `now = 2`. -/
theorem claim10_quaternion_sign_witness :
    (0 : ℝ) < 1 ∧ (1 : ℝ) ≤ 2 ∧
    (updatePose 1 1 poseId poseId 2 (stuckState 1) = stuckState 1 ∧
      (updatePose 1 1 poseId poseId 2 (stuckState 1)).global_target_id =
        (stuckState 1).global_target_id) :=
  ⟨by norm_num, by norm_num,
    claim10_quaternion_sign.2.2.2 1 1 poseId poseId 1 2 (by norm_num) (by norm_num)⟩

end Singularity
